import Mathlib

/-!
Shallow embedding of the LC-3 virtual machine implemented in src/main.c,
together with theorems settling the specification claims about it.

Machine words are modelled as Nat, with explicit reduction modulo 2 ^ 16
wherever the C code's uint16_t arithmetic overflows or truncates.
The global mutable state of the C program (the memory array, the register
file, the running flag, and the attached terminal) is modelled as an
explicit Machine record threaded through every operation; terminal input
is a list of pending character codes and terminal output a list of
emitted characters.
-/

namespace LC3

/-- UINT16_MAX from stdint.h, used as the declared length of the memory
array in src/main.c line 19. -/
def UINT16_MAX : Nat := 65535

/-- PC_START: default program-counter start position (0x3000). -/
def PC_START : Nat := 0x3000

/-- Declared length of the global array in src/main.c line 19:
uint16_t memory[UINT16_MAX]. Valid C indices are 0 .. memoryLength - 1. -/
def memoryLength : Nat := UINT16_MAX

/-- Register index R0. -/
def R0 : Nat := 0

/-- Register index R7. -/
def R7 : Nat := 7

/-- Register index of the program counter. -/
def R_PC : Nat := 8

/-- Register index of the condition-code register. -/
def R_COND : Nat := 9

/-- Condition flag FLG_POS = 1 << 0. -/
def FLG_POS : Nat := 1

/-- Condition flag FLG_ZRO = 1 << 1. -/
def FLG_ZRO : Nat := 2

/-- Condition flag FLG_NEG = 1 << 2. -/
def FLG_NEG : Nat := 4

/-- Keyboard status memory-mapped register address. -/
def MR_KBSR : Nat := 0xFE00

/-- Keyboard data memory-mapped register address. -/
def MR_KBDR : Nat := 0xFE02

/-- Trap code GETC. -/
def TRAP_GETC : Nat := 0x20

/-- Trap code OUT. -/
def TRAP_OUT : Nat := 0x21

/-- Trap code PUTS. -/
def TRAP_PUTS : Nat := 0x22

/-- Trap code IN. -/
def TRAP_IN : Nat := 0x23

/-- Trap code PUTSP. -/
def TRAP_PUTSP : Nat := 0x24

/-- Trap code HALT. -/
def TRAP_HALT : Nat := 0x25

/-- The mutable state of the C program: the register file (indices 0..9),
the memory array (addresses are 16-bit; values are 16-bit words), the
pending terminal input stream, the emitted terminal output, and the
running flag of the main loop. -/
structure Machine where
  registers : Nat → Nat
  memory : Nat → Nat
  input : List Nat
  output : List Char
  running : Bool

/-- Pointwise update of an array modelled as a function: the effect of the
C assignment f[i] = v. -/
def updFn (f : Nat → Nat) (i v : Nat) : Nat → Nat :=
  fun j => if j = i then v else f j

/-- check_key: the non-blocking select(2) poll on stdin. It reports
whether a character is pending on the input stream. -/
def check_key (s : Machine) : Bool :=
  decide (s.input ≠ [])

/-- getchar(3) on the modelled input stream: consume the next pending
character. An empty stream models end-of-file (getchar returns EOF = -1,
which is 0xFFFF after conversion to uint16_t). -/
def getchar : List Nat → Nat × List Nat
  | [] => (0xFFFF, [])
  | c :: rest => (c, rest)

/-- mem_write from src/main.c: memory[address] = value. -/
def mem_write (address value : Nat) (s : Machine) : Machine :=
  ⟨s.registers, updFn s.memory address value, s.input, s.output, s.running⟩

/-- mem_read from src/main.c: a read of MR_KBSR first polls the keyboard
(check_key); if input is pending it sets memory[MR_KBSR] = 1 << 15 and
stores the next input character into memory[MR_KBDR], otherwise it sets
memory[MR_KBSR] = 0. It then returns memory[address]. The stored
character is truncated to uint16_t. -/
def mem_read (address : Nat) (s : Machine) : Nat × Machine :=
  if address = MR_KBSR then
    if check_key s then
      let m := updFn (updFn s.memory MR_KBSR (1 <<< 15)) MR_KBDR ((getchar s.input).1 % 65536)
      (m address, ⟨s.registers, m, (getchar s.input).2, s.output, s.running⟩)
    else
      let m := updFn s.memory MR_KBSR 0
      (m address, ⟨s.registers, m, s.input, s.output, s.running⟩)
  else
    (s.memory address, s)

/-- sign_extend from src/main.c: if bit (num_bits - 1) of x is set, OR x
with 0xFFFF << num_bits; the result is truncated to uint16_t by the
assignment back into the uint16_t variable x. -/
def sign_extend (x : Nat) (num_bits : Nat) : Nat :=
  if (x >>> (num_bits - 1)) &&& 1 = 1 then (x ||| (0xFFFF <<< num_bits)) % 65536 else x

/-- update_flags from src/main.c: set the condition register from the
current value of registers[register_]: zero gives FLG_ZRO, a set top bit
(registers[register_] >> 15 nonzero) gives FLG_NEG, otherwise FLG_POS. -/
def update_flags (register_ : Nat) (registers : Nat → Nat) : Nat → Nat :=
  if registers register_ = 0 then updFn registers R_COND FLG_ZRO
  else if registers register_ >>> 15 ≠ 0 then updFn registers R_COND FLG_NEG
  else updFn registers R_COND FLG_POS

/-- The ADD handler. The destination register receives SR1 plus either
the sign-extended low 5 bits (immediate mode, bit 5 set) or the register
named by the low 3 bits; uint16_t addition wraps modulo 2 ^ 16. Flags are
updated from the destination register. -/
def add (instruction : Nat) (s : Machine) : Machine :=
  let register0 := (instruction >>> 9) &&& 0x7
  let register1 := (instruction >>> 6) &&& 0x7
  let immediate_flag := (instruction >>> 5) &&& 0x1
  let regs :=
    if immediate_flag = 1 then
      let imm5 := sign_extend (instruction &&& 0x1F) 5
      updFn s.registers register0 ((s.registers register1 + imm5) % 65536)
    else
      let register2 := instruction &&& 0x7
      updFn s.registers register0 ((s.registers register1 + s.registers register2) % 65536)
  ⟨update_flags register0 regs, s.memory, s.input, s.output, s.running⟩

/-- The LDI handler: double-indirect load through two mem_read calls;
flags updated from the destination register. -/
def ldi (instruction : Nat) (s : Machine) : Machine :=
  let register0 := (instruction >>> 9) &&& 0x7
  let pc_offset := sign_extend (instruction &&& 0x1FF) 9
  let r1 := mem_read ((s.registers R_PC + pc_offset) % 65536) s
  let r2 := mem_read r1.1 r1.2
  let regs := updFn (r2.2).registers register0 r2.1
  ⟨update_flags register0 regs, (r2.2).memory, (r2.2).input, (r2.2).output, (r2.2).running⟩

/-- The AND handler: bitwise and of SR1 with either the sign-extended low
5 bits (immediate mode, bit 5 set) or the register named by the low 3
bits; flags updated from the destination register. -/
def and (instruction : Nat) (s : Machine) : Machine :=
  let register0 := (instruction >>> 9) &&& 0x7
  let register1 := (instruction >>> 6) &&& 0x7
  let immediate_flag := (instruction >>> 5) &&& 0x1
  let regs :=
    if immediate_flag = 1 then
      let imm5 := sign_extend (instruction &&& 0x1F) 5
      updFn s.registers register0 (s.registers register1 &&& imm5)
    else
      let register2 := instruction &&& 0x7
      updFn s.registers register0 (s.registers register1 &&& s.registers register2)
  ⟨update_flags register0 regs, s.memory, s.input, s.output, s.running⟩

/-- The NOT handler: bitwise complement of SR1 at 16-bit width (the C
operator ~ on a uint16_t value equals XOR with 0xFFFF); flags updated. -/
def not (instruction : Nat) (s : Machine) : Machine :=
  let register0 := (instruction >>> 9) &&& 0x7
  let register1 := (instruction >>> 6) &&& 0x7
  let regs := updFn s.registers register0 (s.registers register1 ^^^ 0xFFFF)
  ⟨update_flags register0 regs, s.memory, s.input, s.output, s.running⟩

/-- The BR handler: if the 3-bit condition mask meets the condition
register, add the sign-extended 9-bit offset to the program counter
(wrapping uint16_t addition). -/
def br (instruction : Nat) (s : Machine) : Machine :=
  let pc_offset := sign_extend (instruction &&& 0x1FF) 9
  let cond_flag := (instruction >>> 9) &&& 0x7
  if cond_flag &&& s.registers R_COND ≠ 0 then
    ⟨updFn s.registers R_PC ((s.registers R_PC + pc_offset) % 65536),
      s.memory, s.input, s.output, s.running⟩
  else s

/-- The JMP handler: program counter becomes the value of the register
named by bits 6..8. -/
def jmp (instruction : Nat) (s : Machine) : Machine :=
  let register1 := (instruction >>> 6) &&& 0x7
  ⟨updFn s.registers R_PC (s.registers register1), s.memory, s.input, s.output, s.running⟩

/-- The JSR/JSRR handler: first save the program counter into R7, then
either add a sign-extended 11-bit offset to the program counter (long
flag, bit 11, set) or load the program counter from the register named by
bits 6..8 (reading the register file after R7 was written). -/
def jsr (instruction : Nat) (s : Machine) : Machine :=
  let long_flag := (instruction >>> 11) &&& 1
  let regs1 := updFn s.registers R7 (s.registers R_PC)
  if long_flag = 1 then
    let long_pc_offset := sign_extend (instruction &&& 0x7FF) 11
    ⟨updFn regs1 R_PC ((regs1 R_PC + long_pc_offset) % 65536),
      s.memory, s.input, s.output, s.running⟩
  else
    let register1 := (instruction >>> 6) &&& 0x7
    ⟨updFn regs1 R_PC (regs1 register1), s.memory, s.input, s.output, s.running⟩

/-- The LD handler: load from program counter plus sign-extended 9-bit
offset through mem_read; flags updated. -/
def ld (instruction : Nat) (s : Machine) : Machine :=
  let register0 := (instruction >>> 9) &&& 0x7
  let pc_offset := sign_extend (instruction &&& 0x1FF) 9
  let r := mem_read ((s.registers R_PC + pc_offset) % 65536) s
  let regs := updFn (r.2).registers register0 r.1
  ⟨update_flags register0 regs, (r.2).memory, (r.2).input, (r.2).output, (r.2).running⟩

/-- The LDR handler: load from base register plus sign-extended 6-bit
offset through mem_read; flags updated. -/
def ldr (instruction : Nat) (s : Machine) : Machine :=
  let register0 := (instruction >>> 9) &&& 0x7
  let register1 := (instruction >>> 6) &&& 0x7
  let offset := sign_extend (instruction &&& 0x3F) 6
  let r := mem_read ((s.registers register1 + offset) % 65536) s
  let regs := updFn (r.2).registers register0 r.1
  ⟨update_flags register0 regs, (r.2).memory, (r.2).input, (r.2).output, (r.2).running⟩

/-- The LEA handler: destination receives program counter plus
sign-extended 9-bit offset (an address, no load); flags updated. -/
def lea (instruction : Nat) (s : Machine) : Machine :=
  let register0 := (instruction >>> 9) &&& 0x7
  let pc_offset := sign_extend (instruction &&& 0x1FF) 9
  let regs := updFn s.registers register0 ((s.registers R_PC + pc_offset) % 65536)
  ⟨update_flags register0 regs, s.memory, s.input, s.output, s.running⟩

/-- The ST handler: store the source register at program counter plus
sign-extended 9-bit offset. -/
def st (instruction : Nat) (s : Machine) : Machine :=
  let register0 := (instruction >>> 9) &&& 0x7
  let pc_offset := sign_extend (instruction &&& 0x1FF) 9
  mem_write ((s.registers R_PC + pc_offset) % 65536) (s.registers register0) s

/-- The STI handler: indirect store; the target address is first loaded
through mem_read. -/
def sti (instruction : Nat) (s : Machine) : Machine :=
  let register0 := (instruction >>> 9) &&& 0x7
  let pc_offset := sign_extend (instruction &&& 0x1FF) 9
  let r := mem_read ((s.registers R_PC + pc_offset) % 65536) s
  mem_write r.1 ((r.2).registers register0) r.2

/-- The STR handler: store the source register at base register plus
sign-extended 6-bit offset. -/
def str (instruction : Nat) (s : Machine) : Machine :=
  let register0 := (instruction >>> 9) &&& 0x7
  let register1 := (instruction >>> 6) &&& 0x7
  let offset := sign_extend (instruction &&& 0x3F) 6
  mem_write ((s.registers register1 + offset) % 65536) (s.registers register0) s

/-- trap_getc: read one character from the input device into R0 (the
getchar result is cast to uint16_t). -/
def trap_getc (s : Machine) : Machine :=
  let g := getchar s.input
  ⟨updFn s.registers R0 (g.1 % 65536), s.memory, g.2, s.output, s.running⟩

/-- trap_out: write the low byte of R0 to the output and flush. -/
def trap_out (s : Machine) : Machine :=
  ⟨s.registers, s.memory, s.input, s.output ++ [Char.ofNat (s.registers R0 % 256)], s.running⟩

/-- The character sequence emitted by the PUTS loop in trap_puts: walk
memory from the given address, emitting the low byte of each cell, until
a zero cell. The C loop has no intrinsic bound (it walks raw memory), so
the recursion is bounded by explicit fuel; the claims proved below do not
depend on the fuel value. -/
def putsLoop (m : Nat → Nat) (address : Nat) : Nat → List Char
  | 0 => []
  | fuel + 1 =>
    if m address = 0 then []
    else Char.ofNat (m address % 256) :: putsLoop m (address + 1) fuel

/-- trap_puts: emit the zero-terminated string of cells starting at the
address in R0, one character per cell. -/
def trap_puts (s : Machine) : Machine :=
  ⟨s.registers, s.memory, s.input, s.output ++ putsLoop s.memory (s.registers R0) 65536, s.running⟩

/-- trap_in: emit the prompt, read one character, echo it, and store it
into R0. The C stores the getchar result through a char variable and
casts it to uint16_t; on the usual signed-char targets a byte at or above
0x80 (and the EOF value) sign-extends, storing 0xFF80 .. 0xFFFF. -/
def trap_in (s : Machine) : Machine :=
  let g := getchar s.input
  let byte := g.1 % 256
  let stored := if byte < 128 then byte else 65280 + byte
  ⟨updFn s.registers R0 stored, s.memory, g.2,
    s.output ++ "Digite um caractere: ".toList ++ [Char.ofNat byte], s.running⟩

/-- The character sequence emitted by the PUTSP loop in trap_putsp: walk
memory from the given address until a zero cell, emitting the low byte of
each cell and then, when nonzero, its high byte. Bounded by explicit fuel
like putsLoop. -/
def putspLoop (m : Nat → Nat) (address : Nat) : Nat → List Char
  | 0 => []
  | fuel + 1 =>
    if m address = 0 then []
    else
      let char1 := Char.ofNat (m address % 256)
      let char2 := m address >>> 8
      (if char2 ≠ 0 then [char1, Char.ofNat (char2 % 256)] else [char1])
        ++ putspLoop m (address + 1) fuel

/-- trap_putsp: emit the zero-terminated byte string packed two bytes per
cell starting at the address in R0. -/
def trap_putsp (s : Machine) : Machine :=
  ⟨s.registers, s.memory, s.input, s.output ++ putspLoop s.memory (s.registers R0) 65536, s.running⟩

/-- halt: print the halt notice (puts appends a newline) and flush. The
C halt takes bool **running and executes *running = false: since false
is the integer constant 0, a null pointer constant, this assigns NULL to
trap's local bool * instead of clearing main's running flag (that would
need **running = false), so the machine's running flag is left
unchanged. -/
def halt (s : Machine) : Machine :=
  ⟨s.registers, s.memory, s.input, s.output ++ "HALT\n".toList, s.running⟩

/-- trap from src/main.c: dispatch on the low byte of the instruction to
one of the six trap routines; any other low byte matches no case of the
switch and the state is left unchanged. -/
def trap (instruction : Nat) (s : Machine) : Machine :=
  if instruction &&& 0xFF = TRAP_GETC then trap_getc s
  else if instruction &&& 0xFF = TRAP_OUT then trap_out s
  else if instruction &&& 0xFF = TRAP_PUTS then trap_puts s
  else if instruction &&& 0xFF = TRAP_IN then trap_in s
  else if instruction &&& 0xFF = TRAP_PUTSP then trap_putsp s
  else if instruction &&& 0xFF = TRAP_HALT then halt s
  else s

/-- The decode/dispatch switch of the main loop: dispatch on the top 4
bits of the fetched instruction, in the case order of the C switch.
OP_RES (13), OP_RTI (8) and the default case call abort(), modelled as
none. -/
def execute (instruction : Nat) (s2 : Machine) : Option Machine :=
  if instruction >>> 12 = 1 then some (add instruction s2)
  else if instruction >>> 12 = 5 then some (and instruction s2)
  else if instruction >>> 12 = 9 then some (not instruction s2)
  else if instruction >>> 12 = 0 then some (br instruction s2)
  else if instruction >>> 12 = 12 then some (jmp instruction s2)
  else if instruction >>> 12 = 4 then some (jsr instruction s2)
  else if instruction >>> 12 = 2 then some (ld instruction s2)
  else if instruction >>> 12 = 10 then some (ldi instruction s2)
  else if instruction >>> 12 = 6 then some (ldr instruction s2)
  else if instruction >>> 12 = 14 then some (lea instruction s2)
  else if instruction >>> 12 = 3 then some (st instruction s2)
  else if instruction >>> 12 = 11 then some (sti instruction s2)
  else if instruction >>> 12 = 7 then some (str instruction s2)
  else if instruction >>> 12 = 15 then some (trap instruction s2)
  else none

/-- One iteration of the fetch/decode/execute loop in main: fetch the
instruction at the program counter through mem_read, post-increment the
program counter (uint16_t wrap), and dispatch through execute. -/
def step (s : Machine) : Option Machine :=
  let fr := mem_read (s.registers R_PC) s
  execute fr.1
    ⟨updFn (fr.2).registers R_PC (((fr.2).registers R_PC + 1) % 65536),
      (fr.2).memory, (fr.2).input, (fr.2).output, (fr.2).running⟩

/-- The main interpreter loop (while running), bounded by fuel: each
iteration runs step while the running flag is set; none models abort(). -/
def run : Nat → Machine → Option Machine
  | 0, s => some s
  | fuel + 1, s => if s.running then (step s).bind (run fuel) else some s

/-- The machine state right before the main loop starts: C global arrays
are zero-initialized, main sets registers[R_PC] = PC_START and running =
true; memory holds the loaded image and the terminal holds the pending
input. -/
def initState (memory0 : Nat → Nat) (input0 : List Nat) : Machine :=
  ⟨updFn (fun _ => 0) R_PC PC_START, memory0, input0, [], true⟩

/-- The condition-register invariant on a flag value: it is exactly one
of the three flags. -/
def condValOK (v : Nat) : Prop :=
  v = FLG_POS ∨ v = FLG_ZRO ∨ v = FLG_NEG

/-- The condition-register invariant on a machine state. -/
def condOK (s : Machine) : Prop :=
  condValOK (s.registers R_COND)

/-- A concrete machine state used to instantiate universally quantified
theorems: zero registers and memory, empty input, running. -/
def sampleMachine : Machine :=
  ⟨fun _ => 0, fun _ => 0, [], [], true⟩

theorem updFn_same (f : Nat → Nat) (i v : Nat) : updFn f i v i = v := by
  simp [updFn]

theorem updFn_ne (f : Nat → Nat) (i v j : Nat) (h : j ≠ i) : updFn f i v j = f j := by
  simp [updFn, h]

/-- C1: the claim that every 16-bit address indexes a valid cell of the
memory array fails on the code: the array is declared with length
UINT16_MAX = 65,535, not 65,536, so the 16-bit address 0xFFFF = 65535 is
one past the end of the declared storage. -/
theorem c1_memory_array_too_short :
    65535 < 65536 ∧ memoryLength = 65535 ∧ ¬ 65535 < memoryLength := by
  refine ⟨by norm_num, rfl, ?_⟩
  unfold memoryLength UINT16_MAX
  omega

/-- C9: a TRAP instruction whose low byte is none of 0x20 .. 0x25 matches
no case of the switch in trap, so the machine state is completely
unchanged: no register, no memory cell, no output, and not the running
flag. -/
theorem c9_trap_unknown_code_is_noop (instruction : Nat) (s : Machine)
    (h : instruction &&& 0xFF < 0x20 ∨ 0x25 < instruction &&& 0xFF) :
    trap instruction s = s := by
  unfold trap TRAP_GETC TRAP_OUT TRAP_PUTS TRAP_IN TRAP_PUTSP TRAP_HALT
  rw [if_neg (by omega), if_neg (by omega), if_neg (by omega), if_neg (by omega),
    if_neg (by omega), if_neg (by omega)]

/-- Witness for C9 at the concrete trap instruction 0xF026 (low byte
0x26, just past HALT). -/
theorem c9_witness :
    (0xF026 &&& 0xFF < 0x20 ∨ 0x25 < 0xF026 &&& 0xFF) ∧
      trap 0xF026 sampleMachine = sampleMachine :=
  ⟨by decide, c9_trap_unknown_code_is_noop 0xF026 sampleMachine (by decide)⟩

/-- C10: mem_read at any address other than the keyboard-status address
returns the stored value of that cell and leaves the whole machine state
(every memory cell included) unchanged; only the status address triggers
the input poll. -/
theorem c10_mem_read_plain (address : Nat) (s : Machine) (h : address ≠ MR_KBSR) :
    mem_read address s = (s.memory address, s) := by
  unfold mem_read
  rw [if_neg h]

/-- Witness for C10 at the keyboard-data address 0xFE02. -/
theorem c10_witness :
    (MR_KBDR ≠ MR_KBSR) ∧
      mem_read MR_KBDR sampleMachine = (sampleMachine.memory MR_KBDR, sampleMachine) :=
  ⟨by decide, c10_mem_read_plain MR_KBDR sampleMachine (by decide)⟩

/-- C4: update_flags sets the condition register to FLG_ZRO exactly when
the written value is 0, to FLG_NEG exactly when bit 15 of the written
value is set, and to FLG_POS otherwise, and the result is always exactly
one of the three flags. -/
theorem c4_update_flags_characterized (registers : Nat → Nat) (register_ : Nat)
    (h : registers register_ < 65536) :
    (update_flags register_ registers R_COND = FLG_ZRO ↔ registers register_ = 0) ∧
    (update_flags register_ registers R_COND = FLG_NEG ↔
      Nat.testBit (registers register_) 15 = true) ∧
    (update_flags register_ registers R_COND = FLG_POS ↔
      (registers register_ ≠ 0 ∧ Nat.testBit (registers register_) 15 = false)) ∧
    condValOK (update_flags register_ registers R_COND) := by
  have hpow : (2 : Nat) ^ 15 = 32768 := by norm_num
  have hbit : Nat.testBit (registers register_) 15 = true ↔ 32768 ≤ registers register_ := by
    rw [Nat.testBit_to_div_mod]
    simp only [decide_eq_true_eq, hpow]
    omega
  have hbitf : Nat.testBit (registers register_) 15 = false ↔ registers register_ < 32768 := by
    constructor
    · intro hb
      by_contra hc
      have ht := hbit.mpr (by omega)
      rw [ht] at hb
      exact Bool.noConfusion hb
    · intro hlt
      cases hb : Nat.testBit (registers register_) 15
      · rfl
      · exact absurd (hbit.mp hb) (by omega)
  unfold update_flags
  rw [Nat.shiftRight_eq_div_pow, hpow]
  by_cases h0 : registers register_ = 0
  · rw [if_pos h0, updFn_same]
    refine ⟨by simp [h0], ?_, ?_, Or.inr (Or.inl rfl)⟩
    · simp only [FLG_ZRO, FLG_NEG]
      constructor
      · intro hh
        exact absurd hh (by norm_num)
      · intro hb
        exact absurd (hbit.mp hb) (by omega)
    · simp only [FLG_ZRO, FLG_POS]
      constructor
      · intro hh
        exact absurd hh (by norm_num)
      · rintro ⟨hne, _⟩
        exact absurd h0 hne
  · rw [if_neg h0]
    by_cases hn : registers register_ / 32768 ≠ 0
    · rw [if_pos hn, updFn_same]
      have hge : 32768 ≤ registers register_ := by omega
      refine ⟨?_, ?_, ?_, Or.inr (Or.inr rfl)⟩
      · simp only [FLG_NEG, FLG_ZRO]
        constructor
        · intro hh
          exact absurd hh (by norm_num)
        · intro hh
          exact absurd hh h0
      · simp [hbit.mpr hge]
      · simp only [FLG_NEG, FLG_POS]
        constructor
        · intro hh
          exact absurd hh (by norm_num)
        · rintro ⟨_, hb⟩
          exact absurd (hbitf.mp hb) (by omega)
    · rw [if_neg hn, updFn_same]
      have hlt : registers register_ < 32768 := by omega
      refine ⟨?_, ?_, ?_, Or.inl rfl⟩
      · simp only [FLG_POS, FLG_ZRO]
        constructor
        · intro hh
          exact absurd hh (by norm_num)
        · intro hh
          exact absurd hh h0
      · simp only [FLG_POS, FLG_NEG]
        constructor
        · intro hh
          exact absurd hh (by norm_num)
        · intro hb
          exact absurd (hbit.mp hb) (by omega)
      · exact ⟨fun _ => ⟨h0, hbitf.mpr hlt⟩, fun _ => rfl⟩

/-- Witness for C4 at a register file whose register 0 holds 40000 (a
value with bit 15 set). -/
theorem c4_witness :
    (updFn (fun _ => 0) 0 40000) 0 < 65536 ∧
    (update_flags 0 (updFn (fun _ => 0) 0 40000) R_COND = FLG_NEG ↔
      Nat.testBit ((updFn (fun _ => 0) 0 40000) 0) 15 = true) ∧
    condValOK (update_flags 0 (updFn (fun _ => 0) 0 40000) R_COND) :=
  ⟨by decide,
    (c4_update_flags_characterized (updFn (fun _ => 0) 0 40000) 0 (by decide)).2.1,
    (c4_update_flags_characterized (updFn (fun _ => 0) 0 40000) 0 (by decide)).2.2.2⟩

/-- C6: reading the keyboard-status address with no pending input stores
0 in the status cell, returns 0, and leaves the data cell unchanged; with
pending input it sets the status cell to 0x8000 (top bit) and stores the
next input character in the data cell, consuming it from the stream. -/
theorem c6_kbsr_read (s : Machine) :
    (s.input = [] →
      (mem_read MR_KBSR s).1 = 0 ∧
      ((mem_read MR_KBSR s).2).memory MR_KBSR = 0 ∧
      ((mem_read MR_KBSR s).2).memory MR_KBDR = s.memory MR_KBDR) ∧
    (∀ c rest, c < 65536 → s.input = c :: rest →
      ((mem_read MR_KBSR s).2).memory MR_KBSR = 32768 ∧
      ((mem_read MR_KBSR s).2).memory MR_KBDR = c ∧
      ((mem_read MR_KBSR s).2).input = rest) := by
  constructor
  · intro hemp
    refine ⟨?_, ?_, ?_⟩ <;>
      simp [mem_read, check_key, hemp, updFn, MR_KBSR, MR_KBDR]
  · intro c rest hc hin
    refine ⟨?_, ?_, ?_⟩ <;>
      simp [mem_read, check_key, hin, getchar, updFn, MR_KBSR, MR_KBDR, Nat.mod_eq_of_lt hc]

/-- Witness for C6: the empty-input case on sampleMachine and the
pending-input case on a machine whose input stream holds character 65. -/
theorem c6_witness :
    sampleMachine.input = [] ∧
    (mem_read MR_KBSR sampleMachine).1 = 0 ∧
    (65 : Nat) < 65536 ∧
    ((mem_read MR_KBSR (⟨fun _ => 0, fun _ => 0, [65], [], true⟩ : Machine)).2).memory MR_KBDR = 65 :=
  ⟨rfl, ((c6_kbsr_read sampleMachine).1 rfl).1, by decide,
    ((c6_kbsr_read ⟨fun _ => 0, fun _ => 0, [65], [], true⟩).2 65 [] (by decide) rfl).2.1⟩

/-- C7: jsr stores the pre-jump program counter into R7 before the
program counter is updated, in both addressing modes; consequently JSRR
with base register R7 sets the program counter to the saved pre-jump
value. -/
theorem updFn_pc_at_r7 (f : Nat → Nat) (v w : Nat) :
    updFn (updFn f R7 w) R_PC v R7 = w := by
  rw [updFn_ne _ _ _ _ (show R7 ≠ R_PC by decide), updFn_same]

theorem updFn_pc_lookup (f : Nat → Nat) (v : Nat) :
    updFn (updFn f R7 v) R_PC (updFn f R7 v 7) R_PC = v := by
  rw [updFn_same]
  exact updFn_same f 7 v

theorem c7_jsr_saves_pc (instruction : Nat) (s : Machine) :
    (jsr instruction s).registers R7 = s.registers R_PC ∧
    ((instruction >>> 11) &&& 1 = 0 → (instruction >>> 6) &&& 0x7 = 7 →
      (jsr instruction s).registers R_PC = s.registers R_PC) := by
  constructor
  · simp only [jsr]
    by_cases hl : (instruction >>> 11) &&& 1 = 1
    · rw [if_pos hl]
      dsimp only
      exact updFn_pc_at_r7 s.registers _ (s.registers R_PC)
    · rw [if_neg hl]
      dsimp only
      exact updFn_pc_at_r7 s.registers _ (s.registers R_PC)
  · intro h0 h7
    have hl : ¬ (instruction >>> 11) &&& 1 = 1 := by omega
    simp only [jsr]
    rw [if_neg hl, h7]
    dsimp only
    exact updFn_pc_lookup s.registers (s.registers R_PC)

/-- Witness for C7 at the JSRR instruction with base register R7
(bit 11 clear, bits 6..8 = 7). -/
theorem c7_witness :
    (0x01C0 >>> 11) &&& 1 = 0 ∧ (0x01C0 >>> 6) &&& 0x7 = 7 ∧
    (jsr 0x01C0 sampleMachine).registers R7 = sampleMachine.registers R_PC ∧
    (jsr 0x01C0 sampleMachine).registers R_PC = sampleMachine.registers R_PC :=
  ⟨by decide, by decide, (c7_jsr_saves_pc 0x01C0 sampleMachine).1,
    (c7_jsr_saves_pc 0x01C0 sampleMachine).2 (by decide) (by decide)⟩

theorem update_flags_at (register_ : Nat) (regs : Nat → Nat) (h : register_ ≠ R_COND) :
    update_flags register_ regs register_ = regs register_ ∧
    update_flags register_ regs R_COND =
      (if regs register_ = 0 then FLG_ZRO
       else if regs register_ >>> 15 ≠ 0 then FLG_NEG else FLG_POS) := by
  constructor
  · unfold update_flags
    split
    · exact updFn_ne _ _ _ _ h
    · split
      · exact updFn_ne _ _ _ _ h
      · exact updFn_ne _ _ _ _ h
  · unfold update_flags
    by_cases h0 : regs register_ = 0
    · rw [if_pos h0, if_pos h0, updFn_same]
    · rw [if_neg h0, if_neg h0]
      by_cases hn : regs register_ >>> 15 ≠ 0
      · rw [if_pos hn, if_pos hn, updFn_same]
      · rw [if_neg hn, if_neg hn, updFn_same]

theorem add_registers (instruction : Nat) (s : Machine) :
    (add instruction s).registers =
      update_flags ((instruction >>> 9) &&& 0x7)
        (updFn s.registers ((instruction >>> 9) &&& 0x7)
          ((s.registers ((instruction >>> 6) &&& 0x7) +
            (if (instruction >>> 5) &&& 0x1 = 1 then sign_extend (instruction &&& 0x1F) 5
             else s.registers (instruction &&& 0x7))) % 65536)) := by
  simp only [add]
  by_cases him : (instruction >>> 5) &&& 0x1 = 1
  · rw [if_pos him, if_pos him]
  · rw [if_neg him, if_neg him]

theorem and_registers (instruction : Nat) (s : Machine) :
    (and instruction s).registers =
      update_flags ((instruction >>> 9) &&& 0x7)
        (updFn s.registers ((instruction >>> 9) &&& 0x7)
          (s.registers ((instruction >>> 6) &&& 0x7) &&&
            (if (instruction >>> 5) &&& 0x1 = 1 then sign_extend (instruction &&& 0x1F) 5
             else s.registers (instruction &&& 0x7)))) := by
  simp only [and]
  by_cases him : (instruction >>> 5) &&& 0x1 = 1
  · rw [if_pos him, if_pos him]
  · rw [if_neg him, if_neg him]

/-- C8: for ADD and AND, a set bit 5 selects the sign-extended low 5 bits
of the instruction as second operand and a clear bit 5 selects the
register named by the low 3 bits; in both modes the condition register is
computed from the destination register's result by the same rule. -/
theorem c8_add_and_modes (instruction : Nat) (s : Machine) :
    (add instruction s).registers ((instruction >>> 9) &&& 0x7) =
      (s.registers ((instruction >>> 6) &&& 0x7) +
        (if (instruction >>> 5) &&& 0x1 = 1 then sign_extend (instruction &&& 0x1F) 5
         else s.registers (instruction &&& 0x7))) % 65536 ∧
    (and instruction s).registers ((instruction >>> 9) &&& 0x7) =
      (s.registers ((instruction >>> 6) &&& 0x7) &&&
        (if (instruction >>> 5) &&& 0x1 = 1 then sign_extend (instruction &&& 0x1F) 5
         else s.registers (instruction &&& 0x7))) ∧
    (add instruction s).registers R_COND =
      (if (add instruction s).registers ((instruction >>> 9) &&& 0x7) = 0 then FLG_ZRO
       else if (add instruction s).registers ((instruction >>> 9) &&& 0x7) >>> 15 ≠ 0 then FLG_NEG
       else FLG_POS) ∧
    (and instruction s).registers R_COND =
      (if (and instruction s).registers ((instruction >>> 9) &&& 0x7) = 0 then FLG_ZRO
       else if (and instruction s).registers ((instruction >>> 9) &&& 0x7) >>> 15 ≠ 0 then FLG_NEG
       else FLG_POS) := by
  have hdr : (instruction >>> 9) &&& 0x7 ≠ R_COND := by
    have h7 : (instruction >>> 9) &&& 0x7 ≤ 7 := Nat.and_le_right
    simp only [R_COND]
    omega
  refine ⟨?_, ?_, ?_, ?_⟩
  · rw [add_registers, (update_flags_at _ _ hdr).1, updFn_same]
  · rw [and_registers, (update_flags_at _ _ hdr).1, updFn_same]
  · rw [add_registers, (update_flags_at _ _ hdr).2, (update_flags_at _ _ hdr).1]
  · rw [and_registers, (update_flags_at _ _ hdr).2, (update_flags_at _ _ hdr).1]

theorem sign_extend_eq (n x : Nat) (h1 : 1 ≤ n) (h2 : n ≤ 16) (hx : x < 2 ^ n) :
    sign_extend x n = if x < 2 ^ (n - 1) then x else x + 65536 - 2 ^ n := by
  obtain ⟨m, rfl⟩ : ∃ m, n = m + 1 := ⟨n - 1, by omega⟩
  have hq : 0 < 2 ^ m := Nat.two_pow_pos m
  have hpow : 2 ^ (m + 1) = 2 * 2 ^ m := by
    rw [Nat.pow_succ, Nat.mul_comm]
  have hle : 2 ^ (m + 1) ≤ 65536 := by
    calc 2 ^ (m + 1) ≤ 2 ^ 16 := Nat.pow_le_pow_right (by norm_num) h2
      _ = 65536 := by norm_num
  unfold sign_extend
  simp only [Nat.add_sub_cancel]
  rw [Nat.shiftRight_eq_div_pow, Nat.and_one_is_mod, Nat.shiftLeft_eq]
  by_cases hc : x / 2 ^ m % 2 = 1
  · rw [if_pos hc]
    have hge : 2 ^ m ≤ x := by
      by_contra hlt
      have h0 : x / 2 ^ m = 0 := Nat.div_eq_of_lt (by omega)
      rw [h0] at hc
      exact absurd hc (by norm_num)
    rw [if_neg (by omega : ¬ x < 2 ^ m)]
    rw [Nat.or_comm, Nat.mul_comm 65535 (2 ^ (m + 1)), ← Nat.mul_add_lt_is_or hx 65535]
    omega
  · rw [if_neg hc]
    have hlt : x < 2 ^ m := by
      by_contra hge
      have hone : x / 2 ^ m = 1 := Nat.div_eq_of_lt_le (by omega) (by omega)
      rw [hone] at hc
      exact absurd rfl hc
    rw [if_pos hlt]

/-- C5: for every 16-bit value v and bit count n in [1,16], sign_extend
applied to the low n bits of v yields the two's-complement value of those
n bits reinterpreted at 16-bit width (the low bits unchanged when the
sign bit is clear, and shifted up by 2 ^ 16 - 2 ^ n when it is set), and
sign_extend at n = 16 is the identity. -/
theorem c5_sign_extend_correct (v n : Nat) (hv : v < 65536) (h1 : 1 ≤ n) (h2 : n ≤ 16) :
    sign_extend (v % 2 ^ n) n =
      (if v % 2 ^ n < 2 ^ (n - 1) then v % 2 ^ n else v % 2 ^ n + 65536 - 2 ^ n) ∧
    sign_extend v 16 = v := by
  constructor
  · exact sign_extend_eq n (v % 2 ^ n) h1 h2 (Nat.mod_lt _ (Nat.two_pow_pos n))
  · have hv16 : v < 2 ^ 16 := by
      rw [show (2 : Nat) ^ 16 = 65536 from by norm_num]
      exact hv
    rw [sign_extend_eq 16 v (by norm_num) (by norm_num) hv16]
    split
    · rfl
    · rw [show (2 : Nat) ^ 16 = 65536 from by norm_num]
      omega

/-- Witness for C5 at v = 23, n = 5: the low 5 bits of 23 are 10111, a
negative 5-bit two's-complement value. -/
theorem c5_witness :
    (23 : Nat) < 65536 ∧ 1 ≤ 5 ∧ (5 : Nat) ≤ 16 ∧
    (sign_extend (23 % 2 ^ 5) 5 =
      (if 23 % 2 ^ 5 < 2 ^ (5 - 1) then 23 % 2 ^ 5 else 23 % 2 ^ 5 + 65536 - 2 ^ 5) ∧
     sign_extend 23 16 = 23) :=
  ⟨by decide, by decide, by decide,
    c5_sign_extend_correct 23 5 (by decide) (by decide) (by decide)⟩

theorem mem_read_registers (address : Nat) (s : Machine) :
    ((mem_read address s).2).registers = s.registers := by
  unfold mem_read
  split
  · split
    · rfl
    · rfl
  · rfl

theorem condValOK_update_flags (register_ : Nat) (regs : Nat → Nat) :
    condValOK (update_flags register_ regs R_COND) := by
  unfold update_flags
  split
  · rw [updFn_same]
    exact Or.inr (Or.inl rfl)
  · split
    · rw [updFn_same]
      exact Or.inr (Or.inr rfl)
    · rw [updFn_same]
      exact Or.inl rfl

theorem condOK_add (i : Nat) (u : Machine) : condOK (add i u) := by
  show condValOK ((add i u).registers R_COND)
  rw [add_registers]
  exact condValOK_update_flags _ _

theorem condOK_and (i : Nat) (u : Machine) : condOK (and i u) := by
  show condValOK ((and i u).registers R_COND)
  rw [and_registers]
  exact condValOK_update_flags _ _

theorem condOK_not (i : Nat) (u : Machine) : condOK (not i u) := by
  unfold condOK not
  dsimp only
  exact condValOK_update_flags _ _

theorem condOK_ld (i : Nat) (u : Machine) : condOK (ld i u) := by
  unfold condOK ld
  dsimp only
  exact condValOK_update_flags _ _

theorem condOK_ldi (i : Nat) (u : Machine) : condOK (ldi i u) := by
  unfold condOK ldi
  dsimp only
  exact condValOK_update_flags _ _

theorem condOK_ldr (i : Nat) (u : Machine) : condOK (ldr i u) := by
  unfold condOK ldr
  dsimp only
  exact condValOK_update_flags _ _

theorem condOK_lea (i : Nat) (u : Machine) : condOK (lea i u) := by
  unfold condOK lea
  dsimp only
  exact condValOK_update_flags _ _

theorem condOK_br (i : Nat) (u : Machine) (h : condOK u) : condOK (br i u) := by
  unfold condOK at *
  simp only [br]
  split
  · exact h
  · exact h

theorem condOK_jmp (i : Nat) (u : Machine) (h : condOK u) : condOK (jmp i u) := h

theorem condOK_jsr (i : Nat) (u : Machine) (h : condOK u) : condOK (jsr i u) := by
  unfold condOK at *
  simp only [jsr]
  split
  · exact h
  · exact h

theorem condOK_st (i : Nat) (u : Machine) (h : condOK u) : condOK (st i u) := h

theorem condOK_str (i : Nat) (u : Machine) (h : condOK u) : condOK (str i u) := h

theorem condOK_sti (i : Nat) (u : Machine) (h : condOK u) : condOK (sti i u) := by
  unfold condOK at *
  unfold sti mem_write
  dsimp only
  rw [mem_read_registers]
  exact h

theorem condOK_trap (i : Nat) (u : Machine) (h : condOK u) : condOK (trap i u) := by
  unfold condOK trap at *
  repeat' split
  all_goals exact h

theorem condOK_fetch (s : Machine) (x : Nat) (h : condOK s) :
    condOK (⟨updFn ((mem_read (s.registers R_PC) s).2).registers R_PC x,
      ((mem_read (s.registers R_PC) s).2).memory, ((mem_read (s.registers R_PC) s).2).input,
      ((mem_read (s.registers R_PC) s).2).output,
      ((mem_read (s.registers R_PC) s).2).running⟩ : Machine) := by
  unfold condOK at *
  dsimp only
  rw [updFn_ne _ _ _ _ (show R_COND ≠ R_PC by decide), mem_read_registers]
  exact h

/-- C3 counterexample: the claim fails in the initial state. The C global
register file is zero-initialized and main only sets the program counter,
so before the first instruction the condition register holds 0, which is
none of the three flags. -/
theorem c3_counterexample :
    (initState (fun _ => 0) []).registers R_COND = 0 ∧
      ¬ condOK (initState (fun _ => 0) []) := by
  constructor
  · rfl
  · intro h
    rcases h with h | h | h
    · exact absurd h (by decide)
    · exact absurd h (by decide)
    · exact absurd h (by decide)

theorem condOK_execute (i : Nat) (u t : Machine) (h : condOK u)
    (hs : execute i u = some t) : condOK t := by
  unfold execute at hs
  by_cases c0 : i >>> 12 = 1
  · rw [if_pos c0] at hs
    obtain rfl := Option.some.inj hs
    exact condOK_add _ _
  · rw [if_neg c0] at hs
    by_cases c1 : i >>> 12 = 5
    · rw [if_pos c1] at hs
      obtain rfl := Option.some.inj hs
      exact condOK_and _ _
    · rw [if_neg c1] at hs
      by_cases c2 : i >>> 12 = 9
      · rw [if_pos c2] at hs
        obtain rfl := Option.some.inj hs
        exact condOK_not _ _
      · rw [if_neg c2] at hs
        by_cases c3 : i >>> 12 = 0
        · rw [if_pos c3] at hs
          obtain rfl := Option.some.inj hs
          exact condOK_br _ _ h
        · rw [if_neg c3] at hs
          by_cases c4 : i >>> 12 = 12
          · rw [if_pos c4] at hs
            obtain rfl := Option.some.inj hs
            exact condOK_jmp _ _ h
          · rw [if_neg c4] at hs
            by_cases c5 : i >>> 12 = 4
            · rw [if_pos c5] at hs
              obtain rfl := Option.some.inj hs
              exact condOK_jsr _ _ h
            · rw [if_neg c5] at hs
              by_cases c6 : i >>> 12 = 2
              · rw [if_pos c6] at hs
                obtain rfl := Option.some.inj hs
                exact condOK_ld _ _
              · rw [if_neg c6] at hs
                by_cases c7 : i >>> 12 = 10
                · rw [if_pos c7] at hs
                  obtain rfl := Option.some.inj hs
                  exact condOK_ldi _ _
                · rw [if_neg c7] at hs
                  by_cases c8 : i >>> 12 = 6
                  · rw [if_pos c8] at hs
                    obtain rfl := Option.some.inj hs
                    exact condOK_ldr _ _
                  · rw [if_neg c8] at hs
                    by_cases c9 : i >>> 12 = 14
                    · rw [if_pos c9] at hs
                      obtain rfl := Option.some.inj hs
                      exact condOK_lea _ _
                    · rw [if_neg c9] at hs
                      by_cases c10 : i >>> 12 = 3
                      · rw [if_pos c10] at hs
                        obtain rfl := Option.some.inj hs
                        exact condOK_st _ _ h
                      · rw [if_neg c10] at hs
                        by_cases c11 : i >>> 12 = 11
                        · rw [if_pos c11] at hs
                          obtain rfl := Option.some.inj hs
                          exact condOK_sti _ _ h
                        · rw [if_neg c11] at hs
                          by_cases c12 : i >>> 12 = 7
                          · rw [if_pos c12] at hs
                            obtain rfl := Option.some.inj hs
                            exact condOK_str _ _ h
                          · rw [if_neg c12] at hs
                            by_cases c13 : i >>> 12 = 15
                            · rw [if_pos c13] at hs
                              obtain rfl := Option.some.inj hs
                              exact condOK_trap _ _ h
                            · rw [if_neg c13] at hs
                              exact Option.noConfusion hs

/-- C3 amended: every executed instruction preserves the property that
the condition register holds exactly one of the three flags, so the
property holds after every step from a state satisfying it; but the
initial state itself has condition register 0 (no flag set), so the
property only holds once the first flag-writing instruction has run, not
in every reachable state. -/
theorem c3_cond_invariant_preserved :
    (∀ s t : Machine, condOK s → step s = some t → condOK t) ∧
    (∀ memory0 input0, (initState memory0 input0).registers R_COND = 0) := by
  constructor
  · intro s t hc hs
    simp only [step] at hs
    exact condOK_execute _ _ _ (condOK_fetch _ _ hc) hs
  · intro memory0 input0
    rfl

/-- Witness for C3: a machine whose condition register holds FLG_ZRO
steps (through a BR instruction fetched from zero memory) to a state that
still holds exactly one flag. -/
theorem c3_witness :
    condOK (⟨updFn (fun _ => 2) R_PC PC_START, fun _ => 0, [], [], true⟩ : Machine) ∧
    ∃ t, step (⟨updFn (fun _ => 2) R_PC PC_START, fun _ => 0, [], [], true⟩ : Machine) = some t ∧
      condOK t := by
  have hok : condOK (⟨updFn (fun _ => 2) R_PC PC_START, fun _ => 0, [], [], true⟩ : Machine) :=
    Or.inr (Or.inl rfl)
  refine ⟨hok, ⟨_, rfl, ?_⟩⟩
  exact c3_cond_invariant_preserved.1 _ _ hok rfl

/-- C2: the claim fails on the code. The C halt(bool **running) performs
*running = false, which assigns the null pointer constant to trap's
local bool * and never clears main's running flag, so a TRAP instruction
with low byte 0x25 (HALT) emits the halt notice without terminating the
loop. No trap routine changes the running flag at all, and on the image
whose word at 0x3000 is 0xF025 the machine has printed HALT but is still
running after executing TRAP HALT, and goes on to execute the next
instruction. -/
theorem c2_trap_halt_does_not_clear_running :
    (∀ (i : Nat) (u : Machine), (trap i u).running = u.running) ∧
    (∃ t, step (initState (updFn (fun _ => 0) 0x3000 0xF025) []) = some t ∧
      t.running = true ∧ t.output = "HALT\n".toList ∧
      ∃ t2, step t = some t2 ∧ t2.running = true) := by
  constructor
  · intro i u
    unfold trap
    repeat' split
    all_goals rfl
  · refine ⟨_, rfl, rfl, rfl, _, rfl, rfl⟩

end LC3
